import Mathlib

/-!
Verification of the signal-processing core of `acoustics/standards/iec_61672_1_2013.py`
(python-acoustics): frequency-weighting tables, block averaging, exponential
integration and the decibel level converters.

Signals are modelled as lists of rationals (one trailing time axis; a leading
batch axis is a list of such signals).  Floating-point values that can be
`-inf` or `NaN` (the results of `np.log10` on non-positive inputs) are
modelled by the tagged type `NpVal`.  Python exceptions are `Option.none`.
Polynomials (scipy convention) are coefficient lists, highest degree first.
-/

namespace Iec61672

/-- Nominal one-third-octave band frequencies, from the source array
`NOMINAL_FREQUENCIES`. -/
def NOMINAL_FREQUENCIES : List ℚ :=
  [10.0, 12.5, 16.0, 20.0, 25.0, 31.5, 40.0, 50.0, 63.0, 80.0,
   100.0, 125.0, 160.0, 200.0, 250.0, 315.0, 400.0, 500.0, 630.0,
   800.0, 1000.0, 1250.0, 1600.0, 2000.0, 2500.0, 3150.0, 4000.0, 5000.0,
   6300.0, 8000.0, 10000.0, 12500.0, 16000.0, 20000.0]

/-- A-weighting corrections, from the source array `WEIGHTING_A`. -/
def WEIGHTING_A : List ℚ :=
  [-70.4, -63.4, -56.7, -50.5, -44.7, -39.4, -34.6, -30.2, -26.2,
   -22.5, -19.1, -16.1, -13.4, -10.9, -8.6, -6.6, -4.8, -3.2, -1.9,
   -0.8, 0.0, 0.6, 1.0, 1.2, 1.3, 1.2, 1.0, 0.5, -0.1, -1.1, -2.5, -4.3, -6.6, -9.3]

/-- C-weighting corrections, from the source array `WEIGHTING_C`. -/
def WEIGHTING_C : List ℚ :=
  [-14.3, -11.2, -8.5, -6.2, -4.4, -3.0, -2.0, -1.3, -0.8, -0.5, -0.3,
   -0.2, -0.1, 0.0, 0.0, 0.0, 0.0, 0.0, 0.0, 0.0, 0, 0.0,
   -0.1, -0.2, -0.3, -0.5, -0.8, -1.3, -2.0, -3.0, -4.4, -6.2, -8.5, -11.2]

/-- Z-weighting corrections, from the source array `WEIGHTING_Z`. -/
def WEIGHTING_Z : List ℚ :=
  [0, 0, 0, 0, 0, 0, 0, 0, 0, 0, 0, 0, 0,
   0, 0, 0, 0, 0, 0, 0, 0, 0, 0, 0, 0, 0,
   0, 0, 0, 0, 0, 0, 0, 0]

/-- FAST time constant (s), source constant `FAST = 0.125`. -/
def FAST : ℚ := 0.125

/-- SLOW time constant (s), source constant `SLOW = 1.000`. -/
def SLOW : ℚ := 1.000

/-! ### Polynomial arithmetic (scipy convention: highest-degree coefficient first) -/

/-- Coefficients of `c(x) * (x - r)` (highest degree first). -/
def polyMulRoot (c : List ℚ) (r : ℚ) : List ℚ :=
  List.zipWith (fun u v => u - r * v) (c ++ [0]) (0 :: c)

/-- `np.poly`: monic polynomial with the given roots, coefficients highest
degree first. -/
def poly (roots : List ℚ) : List ℚ :=
  roots.foldl polyMulRoot [1]

/-- Pointwise sum of two coefficient lists, padding the shorter one with
leading zeros. -/
def polyAdd (p q : List ℚ) : List ℚ :=
  let n := max p.length q.length
  List.zipWith (· + ·) (List.replicate (n - p.length) 0 ++ p)
    (List.replicate (n - q.length) 0 ++ q)

/-- Scale every coefficient. -/
def polyScale (c : ℚ) (p : List ℚ) : List ℚ :=
  p.map (c * ·)

/-- Product of two coefficient lists (Horner accumulation). -/
def polyMul (p q : List ℚ) : List ℚ :=
  p.foldl (fun acc c => polyAdd (acc ++ [0]) (polyScale c q)) []

/-- Evaluate a coefficient list (highest degree first) at a point. -/
def polyEval (p : List ℚ) (x : ℚ) : ℚ :=
  p.foldl (fun acc c => acc * x + c) 0

/-- `scipy.signal.zpk2tf(z, p, k)`: numerator `k * poly(z)` and denominator
`poly(p)` of the transfer function with zeros `z`, poles `p`, gain `k`. -/
def zpk2tf (z p : List ℚ) (k : ℚ) : List ℚ × List ℚ :=
  (polyScale k (poly z), poly p)

/-- `scipy.signal.bilinear(b, a, fs)`: substitute `s = 2*fs*(z-1)/(z+1)` in
`b(s)/a(s)` and clear denominators by `(z+1)^M`, `M = max(deg a, deg b)`.
Each coefficient list `c` of degree `deg` becomes the polynomial
`Σ_i c[deg-i] * (2*fs)^i * (z-1)^i * (z+1)^(M-i)`.  scipy finally divides
both lists by the leading denominator coefficient (`normalize`); that
division is folded into `lfilter`'s own division by `a[0]`, which leaves the
filter's input-output behaviour unchanged. -/
def bilinear (b a : List ℚ) (fs : ℚ) : List ℚ × List ℚ :=
  let M := max (a.length - 1) (b.length - 1)
  let trans : List ℚ → List ℚ := fun c =>
    let deg := c.length - 1
    (List.range (deg + 1)).foldl
      (fun acc i =>
        polyAdd acc
          (polyScale (c.getD (deg - i) 0 * (2 * fs) ^ i)
            (polyMul (poly (List.replicate i 1)) (poly (List.replicate (M - i) (-1))))))
      []
  (trans b, trans a)

/-! ### `scipy.signal.lfilter` (direct-form difference equation, zero initial state) -/

/-- Dot product of two lists, truncating at the shorter one (missing samples
are the implicit zeros before the start of the signal). -/
def dot (u v : List ℚ) : ℚ :=
  (List.zipWith (· * ·) u v).sum

/-- One output sample of the difference equation:
`y[m] = (Σ b[k]·x[m-k] - Σ_{k≥1} a[k]·y[m-k]) / a[0]`, where `xrev`/`yrev`
hold past inputs/outputs newest first. -/
def lfilterStep (b a : List ℚ) (xrev yrev : List ℚ) : ℚ :=
  (dot b xrev - dot a.tail yrev) / a.headD 0

/-- Run the filter over the whole input, zero initial conditions. -/
def lfilterAux (b a : List ℚ) : List ℚ → List ℚ → List ℚ → List ℚ
  | [], _, yrev => yrev.reverse
  | x :: xs, xrev, yrev =>
      lfilterAux b a xs (x :: xrev) (lfilterStep b a (x :: xrev) yrev :: yrev)

/-- `scipy.signal.lfilter(b, a, x)` on a 1-D signal. -/
def lfilter (b a x : List ℚ) : List ℚ :=
  lfilterAux b a x [] []

/-! ### Block structure shared by `average` and `integrate` -/

/-- Block length `n = np.floor(t * fs).astype(int)` (as a natural number;
the claims only concern `t, fs > 0`). -/
def blockLen (t fs : ℚ) : ℕ :=
  (Int.floor (t * fs)).toNat

/-- `data[..., 0:n*(samples//n)].reshape(..., -1, n)`: the list of full
blocks of length `n`; the `samples mod n` trailing samples are dropped. -/
def reshapeBlocks (n : ℕ) (data : List ℚ) : List (List ℚ) :=
  (List.range (data.length / n)).map (fun i => (data.drop (i * n)).take n)

/-- Arithmetic mean of a list (`ndarray.mean(axis=-1)` on one block). -/
def mean (xs : List ℚ) : ℚ :=
  xs.sum / xs.length

/-- Source function `average(data, sample_frequency, averaging_time)`:
truncate to a whole number of blocks of length `n = floor(t*fs)`, reshape,
and take each block's mean.  When `n = 0` the numpy reshape raises
(`ValueError`), modelled as `none`. -/
def average (data : List ℚ) (sample_frequency averaging_time : ℚ) :
    Option (List ℚ) :=
  let n := blockLen averaging_time sample_frequency
  if n = 0 then none
  else some ((reshapeBlocks n data).map mean)

/-- The same operation applied to a batch of channels (a leading array
dimension in the source: the reshape keeps every leading axis and the mean
acts on the trailing axis only, i.e. channelwise). -/
def averageBatch (rows : List (List ℚ)) (sample_frequency averaging_time : ℚ) :
    Option (List (List ℚ)) :=
  let n := blockLen averaging_time sample_frequency
  if n = 0 then none
  else some (rows.map (fun row => (reshapeBlocks n row).map mean))

/-- The digital filter coefficients built by `integrate`:
`b, a = zpk2tf([1.0], [1.0, integration_time], [1.0])` followed by
`b, a = bilinear(b, a, fs=sample_frequency)`. -/
def integrateFilter (integration_time sample_frequency : ℚ) : List ℚ × List ℚ :=
  let ba := zpk2tf [1] [1, integration_time] 1
  bilinear ba.1 ba.2 sample_frequency

/-- Source function `integrate(data, sample_frequency, integration_time)`:
build the digital filter, cut the signal into blocks of length
`n = floor(t*fs)`, run the filter over each block (zero initial state per
block: `lfilter` is applied along the trailing, per-block axis of the
reshaped array), take the output at index `n-1` of each block and divide by
the integration time.  `n = 0` makes the reshape raise, modelled `none`. -/
def integrate (data : List ℚ) (sample_frequency integration_time : ℚ) :
    Option (List ℚ) :=
  let ba := integrateFilter integration_time sample_frequency
  let n := blockLen integration_time sample_frequency
  if n = 0 then none
  else some ((reshapeBlocks n data).map
    (fun blk => (lfilter ba.1 ba.2 blk).getD (n - 1) 0 / integration_time))

/-- Source function `fast(data, fs) = integrate(data, fs, FAST)`. -/
def fast (data : List ℚ) (fs : ℚ) : Option (List ℚ) :=
  integrate data fs FAST

/-- Source function `slow(data, fs) = integrate(data, fs, SLOW)`. -/
def slow (data : List ℚ) (fs : ℚ) : Option (List ℚ) :=
  integrate data fs SLOW

/-! ### Decibel conversion with IEEE special values -/

/-- Value of one entry of a numpy float result: an ordinary real, `-inf`,
or `NaN`. -/
inductive NpVal where
  | val (x : ℝ)
  | neginf
  | nan

/-- `np.log10` on one entry: positive arguments give the real logarithm,
zero gives `-inf`, negative arguments give `NaN` (numpy emits only a
RuntimeWarning in the latter two cases; no exception is raised). -/
noncomputable def np_log10 (x : ℚ) : NpVal :=
  if 0 < x then .val (Real.logb 10 (x : ℝ)) else if x = 0 then .neginf else .nan

/-- Multiplication of a numpy float by the positive constant `10.0`:
finite values scale, `10 * -inf = -inf`, `10 * NaN = NaN`. -/
def npMul10 : NpVal → NpVal
  | .val x => .val (10 * x)
  | .neginf => .neginf
  | .nan => .nan

/-- One entry of `10.0 * np.log10(energy / reference_pressure**2.0)`. -/
noncomputable def levelOfEnergy (reference_pressure e : ℚ) : NpVal :=
  npMul10 (np_log10 (e / reference_pressure ^ 2))

/-- Source function `time_averaged_sound_level`: square the pressure,
block-average it, convert to decibels, and build the time axis
`np.arange(len(levels)) * averaging_time`.  Returns `(times, levels)`. -/
noncomputable def time_averaged_sound_level (pressure : List ℚ)
    (sample_frequency averaging_time reference_pressure : ℚ) :
    Option (List ℚ × List NpVal) :=
  (average (pressure.map (fun p => p ^ 2)) sample_frequency averaging_time).map
    (fun energies =>
      let levels := energies.map (levelOfEnergy reference_pressure)
      ((List.range levels.length).map (fun i : ℕ => (i : ℚ) * averaging_time), levels))

/-- Source function `time_weighted_sound_level`: square the pressure,
exponentially integrate it, convert to decibels, and build the time axis
`np.arange(len(levels)) * integration_time`. -/
noncomputable def time_weighted_sound_level (pressure : List ℚ)
    (sample_frequency integration_time reference_pressure : ℚ) :
    Option (List ℚ × List NpVal) :=
  (integrate (pressure.map (fun p => p ^ 2)) sample_frequency integration_time).map
    (fun energies =>
      let levels := energies.map (levelOfEnergy reference_pressure)
      ((List.range levels.length).map (fun i : ℕ => (i : ℚ) * integration_time), levels))

/-- Source function `fast_level(data, fs) = time_weighted_sound_level(data, fs, FAST)`
(with the default reference pressure, passed explicitly here). -/
noncomputable def fast_level (data : List ℚ) (fs reference_pressure : ℚ) :
    Option (List ℚ × List NpVal) :=
  time_weighted_sound_level data fs FAST reference_pressure

/-- Source function `slow_level(data, fs) = time_weighted_sound_level(data, fs, SLOW)`. -/
noncomputable def slow_level (data : List ℚ) (fs reference_pressure : ℚ) :
    Option (List ℚ × List NpVal) :=
  time_weighted_sound_level data fs SLOW reference_pressure

/-- Modelled from the spec (for comparison with the code's `zpk2tf` call,
which is the subject of claim C1): the continuous-time one-pole low-pass
prototype the spec describes, "transfer function having a single real pole
at `-1/τ` and unity DC-referenced numerator", i.e. `H(s) = 1 / (τ·s + 1)`:
numerator `[1]`, denominator `[τ, 1]`. -/
def specOnePoleLowpass (tau : ℚ) : List ℚ × List ℚ :=
  ([1], [tau, 1])

/-! ### Helper lemmas -/

lemma average_eq (data : List ℚ) (fs t : ℚ) (hn : blockLen t fs ≠ 0) :
    average data fs t = some ((reshapeBlocks (blockLen t fs) data).map mean) := by
  simp [average, hn]

lemma integrate_eq (data : List ℚ) (fs t : ℚ) (hn : blockLen t fs ≠ 0) :
    integrate data fs t = some ((reshapeBlocks (blockLen t fs) data).map
      (fun blk => (lfilter (integrateFilter t fs).1 (integrateFilter t fs).2 blk).getD
        (blockLen t fs - 1) 0 / t)) := by
  simp [integrate, hn]

lemma length_reshapeBlocks (n : ℕ) (data : List ℚ) :
    (reshapeBlocks n data).length = data.length / n := by
  simp [reshapeBlocks]

lemma getElem?_reshapeBlocks (n : ℕ) (data : List ℚ) (i : ℕ) (hi : i < data.length / n) :
    (reshapeBlocks n data)[i]? = some ((data.drop (i * n)).take n) := by
  simp [reshapeBlocks, List.getElem?_map, List.getElem?_range, hi]

lemma block_end_le_trunc {i n L : ℕ} (hi : i < L / n) : i * n + n ≤ n * (L / n) :=
  calc i * n + n = (i + 1) * n := by ring
    _ ≤ (L / n) * n := Nat.mul_le_mul_right n (Nat.succ_le_of_lt hi)
    _ = n * (L / n) := Nat.mul_comm ..

lemma block_end_le {i n L : ℕ} (hi : i < L / n) : i * n + n ≤ L :=
  le_trans (block_end_le_trunc hi) (Nat.mul_div_le L n)

lemma length_block {n i : ℕ} (data : List ℚ) (h : i * n + n ≤ data.length) :
    ((data.drop (i * n)).take n).length = n := by
  simp [List.length_take, List.length_drop]
  omega

lemma slice_of_take {n i m : ℕ} (data : List ℚ) (h : i * n + n ≤ m) :
    ((data.take m).drop (i * n)).take n = (data.drop (i * n)).take n := by
  rw [List.drop_take, List.take_take]
  congr 1
  omega

lemma reshapeBlocks_truncate (n : ℕ) (hn : n ≠ 0) (data : List ℚ) :
    reshapeBlocks n (data.take (n * (data.length / n))) = reshapeBlocks n data := by
  have hle : n * (data.length / n) ≤ data.length := Nat.mul_div_le data.length n
  have hlen : (data.take (n * (data.length / n))).length = n * (data.length / n) := by
    rw [List.length_take]; omega
  unfold reshapeBlocks
  rw [hlen, Nat.mul_div_cancel_left _ (Nat.pos_of_ne_zero hn)]
  apply List.map_congr_left
  intro i hi
  exact slice_of_take data (block_end_le_trunc (List.mem_range.mp hi))

lemma mean_sq_slice_nonneg (p : List ℚ) (a b : ℕ) :
    0 ≤ mean (((p.map (fun x => x ^ 2)).drop a).take b) := by
  apply div_nonneg
  · apply List.sum_nonneg
    intro x hx
    have hx' : x ∈ p.map (fun x => x ^ 2) :=
      List.mem_of_mem_drop (List.mem_of_mem_take hx)
    obtain ⟨y, _, rfl⟩ := List.mem_map.mp hx'
    positivity
  · positivity

/-! ### Claims -/

/-- Evaluate `blockLen` when the product is a whole number. -/
lemma blockLen_eval (t fs : ℚ) (k : ℕ) (h : t * fs = (k : ℚ)) : blockLen t fs = k := by
  unfold blockLen
  rw [h, Int.floor_natCast, Int.toNat_natCast]

set_option maxHeartbeats 2000000 in
/-- C9: the four frequency-weighting tables all have exactly 34 entries,
every entry of `WEIGHTING_Z` is `0.0`, and at the index where
`NOMINAL_FREQUENCIES` equals `1000` Hz both `WEIGHTING_A` and
`WEIGHTING_C` equal `0.0`. -/
theorem weighting_tables_consistent :
    NOMINAL_FREQUENCIES.length = 34 ∧ WEIGHTING_A.length = 34 ∧
    WEIGHTING_C.length = 34 ∧ WEIGHTING_Z.length = 34 ∧
    (∀ x ∈ WEIGHTING_Z, x = 0) ∧
    (∀ i : ℕ, NOMINAL_FREQUENCIES[i]? = some 1000 →
      WEIGHTING_A[i]? = some 0 ∧ WEIGHTING_C[i]? = some 0) := by
  refine ⟨by decide, by decide, by decide, by decide, by decide, ?_⟩
  intro i h
  have hi : i < 34 := by
    have hlt := (List.getElem?_eq_some.mp h).1
    simpa [NOMINAL_FREQUENCIES] using hlt
  interval_cases i <;>
    first
      | (constructor <;> norm_num [WEIGHTING_A, WEIGHTING_C] <;> done)
      | norm_num [NOMINAL_FREQUENCIES] at h

/-- C1 (code bug): the analog prototype the code hands to the bilinear
transform, `zpk2tf([1.0], [1.0, integration_time], [1.0])`, is NOT a
one-pole low-pass with a single real pole at `-1/τ` and unity DC gain.
At `τ = FAST = 0.125` it is `(s-1) / ((s-1)(s-0.125))`: its denominator
vanishes at `+1` and at `+τ` but not at `-1/τ = -8`, and its DC gain is
`b(0)/a(0) = -8 ≠ 1`; the prototype the spec describes, `1/(τs+1)`, does
have the pole at `-1/τ` and unity DC gain. -/
theorem integrate_prototype_not_one_pole :
    zpk2tf [1] [1, FAST] 1 = ([1, -1], [1, -9/8, 1/8]) ∧
    polyEval (zpk2tf [1] [1, FAST] 1).2 (-(1 : ℚ) / FAST) ≠ 0 ∧
    polyEval (zpk2tf [1] [1, FAST] 1).2 1 = 0 ∧
    polyEval (zpk2tf [1] [1, FAST] 1).2 FAST = 0 ∧
    polyEval (zpk2tf [1] [1, FAST] 1).1 0 / polyEval (zpk2tf [1] [1, FAST] 1).2 0 ≠ 1 ∧
    polyEval (specOnePoleLowpass FAST).2 (-(1 : ℚ) / FAST) = 0 ∧
    polyEval (specOnePoleLowpass FAST).1 0 / polyEval (specOnePoleLowpass FAST).2 0 = 1 := by
  have hF : FAST = 1 / 8 := by norm_num [FAST]
  rw [hF]
  refine ⟨?_, ?_, ?_, ?_, ?_, ?_, ?_⟩ <;>
    norm_num [zpk2tf, poly, polyMulRoot, polyScale, polyEval, specOnePoleLowpass,
      List.foldl, List.zipWith]

/-- C2 (counterexample): with signal `[1]`, sample rate `1` and
averaging/integration time `2`, the block length is `n = 2 ≥ 1`, no full
block fits, and both `average` and `integrate` return an empty result as
success (`some []`) instead of failing. -/
theorem zero_blocks_counterexample :
    blockLen 2 1 = 2 ∧ ([1] : List ℚ).length < 2 ∧
    average [1] 1 2 = some [] ∧ integrate [1] 1 2 = some [] := by
  have hb : blockLen 2 1 = 2 := blockLen_eval 2 1 2 (by norm_num)
  refine ⟨hb, by decide, ?_, ?_⟩
  · rw [average_eq _ _ _ (by rw [hb]; decide), hb]
    norm_num [reshapeBlocks]
  · rw [integrate_eq _ _ _ (by rw [hb]; decide), hb]
    norm_num [reshapeBlocks]

/-- C2 (amended): when `n = floor(time * sample_rate) ≥ 1` but no full
block fits in the signal, both the block averager and the exponential
integrator silently return an empty result as success — no
`InvalidConfiguration` error is raised; only the degenerate `n = 0` case
fails (the numpy reshape raises, modelled as `none`), and that failure is
a generic error, not an explicit `InvalidConfiguration`. -/
theorem zero_blocks_silent_empty (data : List ℚ) (fs t : ℚ)
    (hn : blockLen t fs ≠ 0) (hL : data.length < blockLen t fs) :
    (average data fs t = some [] ∧ integrate data fs t = some []) ∧
    (∀ d : List ℚ, ∀ f u : ℚ, blockLen u f = 0 →
      average d f u = none ∧ integrate d f u = none) := by
  have h0 : data.length / blockLen t fs = 0 := Nat.div_eq_of_lt hL
  refine ⟨⟨?_, ?_⟩, ?_⟩
  · rw [average_eq data fs t hn]
    simp [reshapeBlocks, h0]
  · rw [integrate_eq data fs t hn]
    simp [reshapeBlocks, h0]
  · intro d f u h
    exact ⟨by simp [average, h], by simp [integrate, h]⟩

/-- C2 witness: concrete instance of `zero_blocks_silent_empty`. -/
theorem zero_blocks_silent_empty_witness :
    (average [1] 1 2 = some [] ∧ integrate [1] 1 2 = some []) ∧
    (∀ d : List ℚ, ∀ f u : ℚ, blockLen u f = 0 →
      average d f u = none ∧ integrate d f u = none) :=
  zero_blocks_silent_empty [1] 1 2
    (by rw [blockLen_eval 2 1 2 (by norm_num)]; decide)
    (by rw [blockLen_eval 2 1 2 (by norm_num)]; decide)

/-- C4: with `n = blockLen ≥ 1`, both `average` and `integrate` return
exactly `⌊L/n⌋` output values for a signal of length `L`, and dropping the
`L mod n` trailing samples of the input beforehand does not change either
output (those samples are exactly the discarded ones). -/
theorem output_length_and_truncation (data : List ℚ) (fs t : ℚ)
    (hn : blockLen t fs ≠ 0) :
    (∃ ys, average data fs t = some ys ∧
      ys.length = data.length / blockLen t fs) ∧
    (∃ zs, integrate data fs t = some zs ∧
      zs.length = data.length / blockLen t fs) ∧
    average (data.take (data.length - data.length % blockLen t fs)) fs t
      = average data fs t ∧
    integrate (data.take (data.length - data.length % blockLen t fs)) fs t
      = integrate data fs t := by
  have htrunc : data.length - data.length % blockLen t fs
      = blockLen t fs * (data.length / blockLen t fs) := by
    have := Nat.div_add_mod data.length (blockLen t fs)
    omega
  have hblocks := reshapeBlocks_truncate (blockLen t fs) hn data
  refine ⟨⟨_, average_eq data fs t hn, ?_⟩, ⟨_, integrate_eq data fs t hn, ?_⟩, ?_, ?_⟩
  · simp [length_reshapeBlocks]
  · simp [length_reshapeBlocks]
  · rw [average_eq _ _ _ hn, average_eq _ _ _ hn, htrunc, hblocks]
  · rw [integrate_eq _ _ _ hn, integrate_eq _ _ _ hn, htrunc, hblocks]

/-- C4 witness: concrete instance of `output_length_and_truncation` with a
signal of length 3 and block length 2 (one block, one dropped sample). -/
theorem output_length_and_truncation_witness :
    (∃ ys, average [1, 2, 3] 1 2 = some ys ∧
      ys.length = ([1, 2, 3] : List ℚ).length / blockLen 2 1) ∧
    (∃ zs, integrate [1, 2, 3] 1 2 = some zs ∧
      zs.length = ([1, 2, 3] : List ℚ).length / blockLen 2 1) ∧
    average (([1, 2, 3] : List ℚ).take
        (([1, 2, 3] : List ℚ).length - ([1, 2, 3] : List ℚ).length % blockLen 2 1)) 1 2
      = average [1, 2, 3] 1 2 ∧
    integrate (([1, 2, 3] : List ℚ).take
        (([1, 2, 3] : List ℚ).length - ([1, 2, 3] : List ℚ).length % blockLen 2 1)) 1 2
      = integrate [1, 2, 3] 1 2 :=
  output_length_and_truncation [1, 2, 3] 1 2
    (by rw [blockLen_eval 2 1 2 (by norm_num)]; decide)

/-- C5: with `n = blockLen ≥ 1` and `i < ⌊L/n⌋`, the block averager's
output at index `i` is the arithmetic mean of samples `i*n .. i*n + n - 1`
(the block really has those `n` samples), and on a batch of channels the
averager acts channelwise, preserving the leading batch dimension. -/
theorem average_block_mean (data : List ℚ) (rows : List (List ℚ)) (fs t : ℚ) (i : ℕ)
    (hn : blockLen t fs ≠ 0) (hi : i < data.length / blockLen t fs) :
    (∃ ys, average data fs t = some ys ∧
      ys[i]? = some (((data.drop (i * blockLen t fs)).take (blockLen t fs)).sum
                      / (blockLen t fs : ℚ)) ∧
      ((data.drop (i * blockLen t fs)).take (blockLen t fs)).length = blockLen t fs) ∧
    (∃ out, averageBatch rows fs t = some out ∧ out.length = rows.length ∧
      ∀ k : ℕ, out[k]? = (rows[k]?).map (fun row => (average row fs t).getD [])) := by
  have hlen : ((data.drop (i * blockLen t fs)).take (blockLen t fs)).length
      = blockLen t fs := length_block data (block_end_le hi)
  refine ⟨⟨_, average_eq data fs t hn, ?_, hlen⟩,
    ⟨rows.map (fun row => (reshapeBlocks (blockLen t fs) row).map mean),
      by simp [averageBatch, hn], by simp, ?_⟩⟩
  · rw [List.getElem?_map, getElem?_reshapeBlocks _ _ _ hi]
    simp [mean, hlen]
  · intro k
    rw [List.getElem?_map]
    rcases hk : rows[k]? with _ | row
    · rfl
    · simp [average_eq row fs t hn]

/-- C5 witness: concrete instance of `average_block_mean` (signal
`[1, 2, 3, 4, 5]`, one batch row, block length 2, block index 1). -/
theorem average_block_mean_witness :
    (∃ ys, average [1, 2, 3, 4, 5] 1 2 = some ys ∧
      ys[1]? = some (((([1, 2, 3, 4, 5] : List ℚ).drop (1 * blockLen 2 1)).take
          (blockLen 2 1)).sum / (blockLen 2 1 : ℚ)) ∧
      ((([1, 2, 3, 4, 5] : List ℚ).drop (1 * blockLen 2 1)).take (blockLen 2 1)).length
        = blockLen 2 1) ∧
    (∃ out, averageBatch [[1, 2]] 1 2 = some out ∧ out.length = [[1, 2]].length ∧
      ∀ k : ℕ, out[k]? = (([[1, 2]] : List (List ℚ))[k]?).map
        (fun row => (average row 1 2).getD [])) :=
  average_block_mean [1, 2, 3, 4, 5] [[1, 2]] 1 2 1
    (by rw [blockLen_eval 2 1 2 (by norm_num)]; decide)
    (by rw [blockLen_eval 2 1 2 (by norm_num)]; decide)

/-- C3: with `n = blockLen ≥ 1`, the exponential integrator's output at
block index `i` is the digital filter's output at the last sample
(index `n-1`) of block `i` divided by the integration time, where the
filter is run over block `i` alone from zero initial state; consequently
two signals whose block `i` samples coincide get the same output at `i`
(no filter state crosses block boundaries). -/
theorem integrate_blockwise_reset (data data' : List ℚ) (fs t : ℚ) (i : ℕ)
    (hn : blockLen t fs ≠ 0)
    (hi : i < data.length / blockLen t fs)
    (hi' : i < data'.length / blockLen t fs)
    (hblk : (data.drop (i * blockLen t fs)).take (blockLen t fs)
          = (data'.drop (i * blockLen t fs)).take (blockLen t fs)) :
    ∃ ys zs, integrate data fs t = some ys ∧ integrate data' fs t = some zs ∧
      ys[i]? = some ((lfilter (integrateFilter t fs).1 (integrateFilter t fs).2
          ((data.drop (i * blockLen t fs)).take (blockLen t fs))).getD
          (blockLen t fs - 1) 0 / t) ∧
      zs[i]? = ys[i]? := by
  refine ⟨_, _, integrate_eq data fs t hn, integrate_eq data' fs t hn, ?_, ?_⟩
  · rw [List.getElem?_map, getElem?_reshapeBlocks _ _ _ hi]
    rfl
  · rw [List.getElem?_map, getElem?_reshapeBlocks _ _ _ hi',
      List.getElem?_map, getElem?_reshapeBlocks _ _ _ hi, ← hblk]

/-- C3 witness: concrete instance of `integrate_blockwise_reset` — the
signals `[1, 2]` and `[1, 2, 7]` share block 0, so the integrator output
at block 0 agrees, whatever follows the block. -/
theorem integrate_blockwise_reset_witness :
    ∃ ys zs, integrate [1, 2] 1 2 = some ys ∧ integrate [1, 2, 7] 1 2 = some zs ∧
      ys[0]? = some ((lfilter (integrateFilter 2 1).1 (integrateFilter 2 1).2
          ((([1, 2] : List ℚ).drop (0 * blockLen 2 1)).take (blockLen 2 1))).getD
          (blockLen 2 1 - 1) 0 / 2) ∧
      zs[0]? = ys[0]? :=
  integrate_blockwise_reset [1, 2] [1, 2, 7] 1 2 0
    (by rw [blockLen_eval 2 1 2 (by norm_num)]; decide)
    (by rw [blockLen_eval 2 1 2 (by norm_num)]; decide)
    (by rw [blockLen_eval 2 1 2 (by norm_num)]; decide)
    (by rw [blockLen_eval 2 1 2 (by norm_num)]; decide)

/-- The level entry produced for a positive energy ratio. -/
lemma levelOfEnergy_pos (pref e : ℚ) (h : 0 < e / pref ^ 2) :
    levelOfEnergy pref e
      = NpVal.val (10 * Real.logb 10 ((e / pref ^ 2 : ℚ) : ℝ)) := by
  unfold levelOfEnergy np_log10
  rw [if_pos h]
  rfl

/-- The level entry produced for a zero energy ratio. -/
lemma levelOfEnergy_zero (pref e : ℚ) (h : e / pref ^ 2 = 0) :
    levelOfEnergy pref e = NpVal.neginf := by
  unfold levelOfEnergy np_log10
  rw [if_neg (by rw [h]; exact lt_irrefl 0), if_pos h]
  rfl

/-- The level entry produced for a negative energy ratio. -/
lemma levelOfEnergy_neg (pref e : ℚ) (h : e / pref ^ 2 < 0) :
    levelOfEnergy pref e = NpVal.nan := by
  unfold levelOfEnergy np_log10
  rw [if_neg (by linarith), if_neg (by linarith)]
  rfl

/-- C6: both level converters compute `level[i] = 10·log10(energy[i]/pref²)`
for every block `i`, where `energy` is the corresponding integrator's output
on the squared pressure signal (exact over the reals, for positive energy
and a nonzero reference pressure). -/
theorem decibel_conversion_formula (pressure : List ℚ) (fs t pref : ℚ) (i : ℕ) (e : ℚ)
    (hpref : pref ≠ 0) (he : 0 < e) :
    (∀ es, average (pressure.map (fun p => p ^ 2)) fs t = some es → es[i]? = some e →
      ∃ ts ls, time_averaged_sound_level pressure fs t pref = some (ts, ls) ∧
        ls[i]? = some (NpVal.val (10 * Real.logb 10 ((e / pref ^ 2 : ℚ) : ℝ)))) ∧
    (∀ es, integrate (pressure.map (fun p => p ^ 2)) fs t = some es → es[i]? = some e →
      ∃ ts ls, time_weighted_sound_level pressure fs t pref = some (ts, ls) ∧
        ls[i]? = some (NpVal.val (10 * Real.logb 10 ((e / pref ^ 2 : ℚ) : ℝ)))) := by
  have hp2 : 0 < pref ^ 2 := lt_of_le_of_ne (sq_nonneg pref) (Ne.symm (pow_ne_zero 2 hpref))
  have hpos : 0 < e / pref ^ 2 := div_pos he hp2
  constructor
  · intro es hes hei
    refine ⟨(List.range (es.map (levelOfEnergy pref)).length).map (fun k : ℕ => (k : ℚ) * t),
      es.map (levelOfEnergy pref), ?_, ?_⟩
    · unfold time_averaged_sound_level
      rw [hes]
      rfl
    · rw [List.getElem?_map, hei, Option.map_some', levelOfEnergy_pos pref e hpos]
  · intro es hes hei
    refine ⟨(List.range (es.map (levelOfEnergy pref)).length).map (fun k : ℕ => (k : ℚ) * t),
      es.map (levelOfEnergy pref), ?_, ?_⟩
    · unfold time_weighted_sound_level
      rw [hes]
      rfl
    · rw [List.getElem?_map, hei, Option.map_some', levelOfEnergy_pos pref e hpos]

/-- C6 witness: concrete instance of `decibel_conversion_formula`
(constant unit pressure, one-sample blocks, unit reference pressure). -/
theorem decibel_conversion_formula_witness :
    ∃ ts ls, time_averaged_sound_level [1] 1 1 1 = some (ts, ls) ∧
      ls[0]? = some (NpVal.val (10 * Real.logb 10 (((1 : ℚ) / (1 : ℚ) ^ 2 : ℚ) : ℝ))) :=
  (decibel_conversion_formula [1] 1 1 1 0 1 (by norm_num) (by norm_num)).1 [1]
    (by
      rw [show (([1] : List ℚ).map (fun p => p ^ 2)) = [1] from by norm_num]
      rw [average_eq _ _ _ (by rw [blockLen_eval 1 1 1 (by norm_num)]; decide),
        blockLen_eval 1 1 1 (by norm_num)]
      norm_num [reshapeBlocks, List.range_succ, mean])
    (by norm_num)

/-- C7 (counterexample): with pressure `[1, 1, 1]`, sample rate `1` and
integration time `3`, the integrator's block energy is `-17/3 < 0`
(the misdesigned filter can produce negative energies), yet the level
converter does not fail: it returns a level sequence whose entry is `NaN`.
So a strictly negative energy does not raise a `NumericError`. -/
theorem negative_energy_no_error_cex :
    integrate (([1, 1, 1] : List ℚ).map (fun p => p ^ 2)) 1 3 = some [-17/3] ∧
    ((-17 : ℚ)/3) / (1 : ℚ) ^ 2 < 0 ∧
    (∃ ts ls, time_weighted_sound_level [1, 1, 1] 1 3 1 = some (ts, ls) ∧
      ls[0]? = some NpVal.nan) := by
  have hm : (([1, 1, 1] : List ℚ).map (fun p => p ^ 2)) = [1, 1, 1] := by norm_num
  have hb : blockLen 3 1 = 3 := blockLen_eval 3 1 3 (by norm_num)
  have hf : integrateFilter 3 1 = ([1, -2, -3], [-1, -2, 15]) := by
    unfold integrateFilter zpk2tf bilinear
    norm_num [poly, polyMulRoot, polyScale, polyMul, polyAdd, List.range_succ,
      List.replicate, List.foldl, List.zipWith]
  have hint : integrate [1, 1, 1] 1 3 = some [-17/3] := by
    rw [integrate_eq _ _ _ (by rw [hb]; decide), hb, hf]
    norm_num [reshapeBlocks, List.range_succ, lfilter, lfilterAux, lfilterStep,
      dot, List.zipWith]
  refine ⟨by rw [hm]; exact hint, by norm_num, ?_⟩
  refine ⟨(List.range (([(-17/3 : ℚ)].map (levelOfEnergy 1))).length).map (fun k : ℕ => (k : ℚ) * 3),
    ([(-17/3 : ℚ)].map (levelOfEnergy 1)), ?_, ?_⟩
  · unfold time_weighted_sound_level
    rw [hm, hint]
    rfl
  · simp [levelOfEnergy_neg 1 (-17/3) (by norm_num)]

/-- C7 (amended): the decibel conversion never fails, whatever the sign of
the block energy: a strictly negative energy ratio silently yields `NaN`
in the level sequence, an exactly-zero ratio yields `-inf` (the silence
sentinel), and a positive ratio yields a finite level — for both
converters. -/
theorem decibel_conversion_never_fails (pressure : List ℚ) (fs t pref : ℚ)
    (i : ℕ) (e : ℚ) :
    (∀ es, average (pressure.map (fun p => p ^ 2)) fs t = some es → es[i]? = some e →
      ∃ ts ls, time_averaged_sound_level pressure fs t pref = some (ts, ls) ∧
        (e / pref ^ 2 < 0 → ls[i]? = some NpVal.nan) ∧
        (e / pref ^ 2 = 0 → ls[i]? = some NpVal.neginf) ∧
        (0 < e / pref ^ 2 →
          ls[i]? = some (NpVal.val (10 * Real.logb 10 ((e / pref ^ 2 : ℚ) : ℝ))))) ∧
    (∀ es, integrate (pressure.map (fun p => p ^ 2)) fs t = some es → es[i]? = some e →
      ∃ ts ls, time_weighted_sound_level pressure fs t pref = some (ts, ls) ∧
        (e / pref ^ 2 < 0 → ls[i]? = some NpVal.nan) ∧
        (e / pref ^ 2 = 0 → ls[i]? = some NpVal.neginf) ∧
        (0 < e / pref ^ 2 →
          ls[i]? = some (NpVal.val (10 * Real.logb 10 ((e / pref ^ 2 : ℚ) : ℝ))))) := by
  constructor
  · intro es hes hei
    refine ⟨(List.range (es.map (levelOfEnergy pref)).length).map (fun k : ℕ => (k : ℚ) * t),
      es.map (levelOfEnergy pref), ?_, ?_, ?_, ?_⟩
    · unfold time_averaged_sound_level
      rw [hes]
      rfl
    · intro h
      rw [List.getElem?_map, hei, Option.map_some', levelOfEnergy_neg pref e h]
    · intro h
      rw [List.getElem?_map, hei, Option.map_some', levelOfEnergy_zero pref e h]
    · intro h
      rw [List.getElem?_map, hei, Option.map_some', levelOfEnergy_pos pref e h]
  · intro es hes hei
    refine ⟨(List.range (es.map (levelOfEnergy pref)).length).map (fun k : ℕ => (k : ℚ) * t),
      es.map (levelOfEnergy pref), ?_, ?_, ?_, ?_⟩
    · unfold time_weighted_sound_level
      rw [hes]
      rfl
    · intro h
      rw [List.getElem?_map, hei, Option.map_some', levelOfEnergy_neg pref e h]
    · intro h
      rw [List.getElem?_map, hei, Option.map_some', levelOfEnergy_zero pref e h]
    · intro h
      rw [List.getElem?_map, hei, Option.map_some', levelOfEnergy_pos pref e h]

/-- C7 witness: concrete instance of `decibel_conversion_never_fails` on
the negative-energy input of the counterexample. -/
theorem decibel_conversion_never_fails_witness :
    ∃ ts ls, time_weighted_sound_level [1, 1, 1] 1 3 1 = some (ts, ls) ∧
      ((-17/3 : ℚ) / (1 : ℚ) ^ 2 < 0 → ls[0]? = some NpVal.nan) ∧
      ((-17/3 : ℚ) / (1 : ℚ) ^ 2 = 0 → ls[0]? = some NpVal.neginf) ∧
      (0 < (-17/3 : ℚ) / (1 : ℚ) ^ 2 →
        ls[0]? = some (NpVal.val (10 * Real.logb 10 (((-17/3 : ℚ) / (1 : ℚ) ^ 2 : ℚ) : ℝ)))) :=
  (decibel_conversion_never_fails [1, 1, 1] 1 3 1 0 (-17/3)).2 [-17/3]
    (by
      rw [show (([1, 1, 1] : List ℚ).map (fun p => p ^ 2)) = [1, 1, 1] from by norm_num]
      have hb : blockLen 3 1 = 3 := blockLen_eval 3 1 3 (by norm_num)
      have hf : integrateFilter 3 1 = ([1, -2, -3], [-1, -2, 15]) := by
        unfold integrateFilter zpk2tf bilinear
        norm_num [poly, polyMulRoot, polyScale, polyMul, polyAdd, List.range_succ,
          List.replicate, List.foldl, List.zipWith]
      rw [integrate_eq _ _ _ (by rw [hb]; decide), hb, hf]
      norm_num [reshapeBlocks, List.range_succ, lfilter, lfilterAux, lfilterStep,
        dot, List.zipWith])
    (by norm_num)

/-- Shared shape of both level converters: whenever the result is `some`,
the time axis is `i * t` entrywise and has the same length as the level
sequence. -/
lemma times_levels_spec (o : Option (List ℚ)) (t pref : ℚ) (ts : List ℚ) (ls : List NpVal)
    (h : o.map (fun energies =>
        let levels := energies.map (levelOfEnergy pref)
        ((List.range levels.length).map (fun i : ℕ => (i : ℚ) * t), levels)) = some (ts, ls)) :
    ts.length = ls.length ∧ ∀ i : ℕ, i < ts.length → ts[i]? = some ((i : ℚ) * t) := by
  rcases o with _ | es
  · simp at h
  · rw [Option.map_some'] at h
    obtain ⟨hts, hls⟩ := Prod.ext_iff.mp (Option.some.inj h)
    dsimp only at hts hls
    constructor
    · rw [← hts, ← hls]
      simp
    · intro i hi
      rw [← hts] at hi ⊢
      simp only [List.length_map, List.length_range] at hi
      rw [List.getElem?_map]
      simp only [List.length_map]
      rw [List.getElem?_range hi]
      rfl

/-- C8: for both level converters, the returned time axis satisfies
`times[i] = i * T` for every `i < len(levels)`, and
`len(times) = len(levels)` always holds (including the empty case). -/
theorem time_axis_aligned (pressure : List ℚ) (fs t pref : ℚ) :
    (∀ ts ls, time_averaged_sound_level pressure fs t pref = some (ts, ls) →
      ts.length = ls.length ∧ ∀ i : ℕ, i < ts.length → ts[i]? = some ((i : ℚ) * t)) ∧
    (∀ ts ls, time_weighted_sound_level pressure fs t pref = some (ts, ls) →
      ts.length = ls.length ∧ ∀ i : ℕ, i < ts.length → ts[i]? = some ((i : ℚ) * t)) := by
  constructor
  · intro ts ls h
    unfold time_averaged_sound_level at h
    exact times_levels_spec _ t pref ts ls h
  · intro ts ls h
    unfold time_weighted_sound_level at h
    exact times_levels_spec _ t pref ts ls h

/-- C8 witness: concrete instance of `time_axis_aligned` on the empty
signal (`levels = times = []`). -/
theorem time_axis_aligned_witness :
    ([] : List ℚ).length = ([] : List NpVal).length ∧
    ∀ i : ℕ, i < ([] : List ℚ).length → ([] : List ℚ)[i]? = some ((i : ℚ) * 1) :=
  (time_axis_aligned [] 1 1 1).1 [] []
    (by
      unfold time_averaged_sound_level
      rw [average_eq _ _ _ (by rw [blockLen_eval 1 1 1 (by norm_num)]; decide),
        blockLen_eval 1 1 1 (by norm_num)]
      simp [reshapeBlocks])

/-- C10: for a real-valued pressure input, every block energy the
time-averaged converter feeds to the decibel conversion is non-negative
(it is a mean of squares), so every returned level is a finite real or
`-inf`; the `NaN` (undefined logarithm) case is unreachable through this
pipeline. -/
theorem squared_pressure_never_nan (pressure : List ℚ) (fs t pref : ℚ)
    (i : ℕ) (e : ℚ) (es : List ℚ) (hpref : pref ≠ 0)
    (hes : average (pressure.map (fun p => p ^ 2)) fs t = some es)
    (hei : es[i]? = some e) :
    0 ≤ e ∧ ∃ ts ls, time_averaged_sound_level pressure fs t pref = some (ts, ls) ∧
      ((∃ x : ℝ, ls[i]? = some (NpVal.val x)) ∨ ls[i]? = some NpVal.neginf) := by
  have hn : blockLen t fs ≠ 0 := by
    intro h0
    rw [average, h0] at hes
    simp at hes
  rw [average_eq _ _ _ hn] at hes
  have hes' := Option.some.inj hes
  subst hes'
  have hi : i < (pressure.map (fun p => p ^ 2)).length / blockLen t fs := by
    by_contra hge
    have hnone : ((reshapeBlocks (blockLen t fs)
        (pressure.map (fun p => p ^ 2))).map mean)[i]? = none := by
      apply List.getElem?_eq_none
      rw [List.length_map, length_reshapeBlocks]
      omega
    rw [hnone] at hei
    exact Option.noConfusion hei
  rw [List.getElem?_map, getElem?_reshapeBlocks _ _ _ hi, Option.map_some'] at hei
  have he : 0 ≤ e := by
    rw [← Option.some.inj hei]
    exact mean_sq_slice_nonneg pressure (i * blockLen t fs) (blockLen t fs)
  have hp2 : 0 < pref ^ 2 := lt_of_le_of_ne (sq_nonneg pref) (Ne.symm (pow_ne_zero 2 hpref))
  have hr : 0 ≤ e / pref ^ 2 := div_nonneg he hp2.le
  refine ⟨he, (List.range ((((reshapeBlocks (blockLen t fs) (pressure.map (fun p => p ^ 2))).map
      mean).map (levelOfEnergy pref))).length).map (fun k : ℕ => (k : ℚ) * t),
    ((reshapeBlocks (blockLen t fs) (pressure.map (fun p => p ^ 2))).map
      mean).map (levelOfEnergy pref), ?_, ?_⟩
  · unfold time_averaged_sound_level
    rw [average_eq _ _ _ hn]
    rfl
  · have hlse : ((((reshapeBlocks (blockLen t fs) (pressure.map (fun p => p ^ 2))).map
        mean).map (levelOfEnergy pref)))[i]? = some (levelOfEnergy pref e) := by
      rw [List.getElem?_map, List.getElem?_map, getElem?_reshapeBlocks _ _ _ hi,
        Option.map_some', Option.map_some', Option.some.inj hei]
    rcases lt_or_eq_of_le hr with hpos | hzero
    · exact Or.inl ⟨_, by rw [hlse, levelOfEnergy_pos pref e hpos]⟩
    · exact Or.inr (by rw [hlse, levelOfEnergy_zero pref e hzero.symm])

/-- C10 witness: concrete instance of `squared_pressure_never_nan`
(pressure `[1]`, unit sample rate, time and reference pressure). -/
theorem squared_pressure_never_nan_witness :
    0 ≤ (1 : ℚ) ∧ ∃ ts ls, time_averaged_sound_level [1] 1 1 1 = some (ts, ls) ∧
      ((∃ x : ℝ, ls[0]? = some (NpVal.val x)) ∨ ls[0]? = some NpVal.neginf) :=
  squared_pressure_never_nan [1] 1 1 1 0 1 [1] (by norm_num)
    (by
      rw [average_eq _ _ _ (by rw [blockLen_eval 1 1 1 (by norm_num)]; decide),
        blockLen_eval 1 1 1 (by norm_num)]
      norm_num [reshapeBlocks, List.range_succ, mean])
    (by norm_num)

end Iec61672
